import Mathlib

/-!
Verification of the monique monitor-profile manager.

This file gives a shallow embedding of the parts of the program that the
specification talks about:

* `models.py`      — `MonitorConfig`, `WorkspaceRule`, `Profile`, the
  description normalisation done in `MonitorConfig.__post_init__`, the
  `is_internal` predicate, `apply_clamshell` / `undo_clamshell`, and the
  `to_dict` / `from_dict` serialisation round-trip;
* `profile_manager.py` — `ProfileManager.find_best_match` (Jaccard scoring,
  the 0.5 floor, tie-break ranking, exact mode);
* `daemon.py`      — the loop-suppression / skip decision, the state update
  after an apply, and the post-clamshell safety step of
  `MonitorDaemon._apply_best_profile`;
* the `apply_profile` keyword signatures of the three compositor clients
  (`hyprland.py`, `sway.py`, `niri.py`) together with the keyword set the
  daemon passes at the call site.

Python strings are modelled as `String` (character-level operations as
`List Char`), Python floats as `ℚ` (only equality and order comparisons of
these fields occur in the modelled code), Python ints as `ℤ`, in-place list
mutation as pure list transformation returning the new list, and raising
code as `Option`-valued functions.
-/

namespace Monique

/- ── Enums (models.py) ─────────────────────────────────────────────── -/

inductive ResolutionMode where
  | explicit | preferred | highres | highrr
deriving DecidableEq, Repr

inductive PositionMode where
  | explicit | auto | autoRight | autoLeft | autoUp | autoDown
  | autoCenterRight | autoCenterLeft | autoCenterUp | autoCenterDown
deriving DecidableEq, Repr

inductive ScaleMode where
  | explicit | auto
deriving DecidableEq, Repr

inductive VRR where
  | off | on | fullscreen
deriving DecidableEq, Repr

inductive Transform where
  | normal | rotate90 | rotate180 | rotate270
  | flipped | flipped90 | flipped180 | flipped270
deriving DecidableEq, Repr

/-- String tag of a `ResolutionMode` (the Python enum `.value`). -/
def ResolutionMode.value : ResolutionMode → String
  | .explicit => "explicit"
  | .preferred => "preferred"
  | .highres => "highres"
  | .highrr => "highrr"

/-- Inverse of `ResolutionMode.value`; `none` models the `ValueError`
raised by the Python enum constructor on an unknown tag. -/
def ResolutionMode.ofValue (s : String) : Option ResolutionMode :=
  if s = "explicit" then some .explicit
  else if s = "preferred" then some .preferred
  else if s = "highres" then some .highres
  else if s = "highrr" then some .highrr
  else none

/-- String tag of a `PositionMode`. -/
def PositionMode.value : PositionMode → String
  | .explicit => "explicit"
  | .auto => "auto"
  | .autoRight => "auto-right"
  | .autoLeft => "auto-left"
  | .autoUp => "auto-up"
  | .autoDown => "auto-down"
  | .autoCenterRight => "auto-center-right"
  | .autoCenterLeft => "auto-center-left"
  | .autoCenterUp => "auto-center-up"
  | .autoCenterDown => "auto-center-down"

/-- Inverse of `PositionMode.value`. -/
def PositionMode.ofValue (s : String) : Option PositionMode :=
  if s = "explicit" then some .explicit
  else if s = "auto" then some .auto
  else if s = "auto-right" then some .autoRight
  else if s = "auto-left" then some .autoLeft
  else if s = "auto-up" then some .autoUp
  else if s = "auto-down" then some .autoDown
  else if s = "auto-center-right" then some .autoCenterRight
  else if s = "auto-center-left" then some .autoCenterLeft
  else if s = "auto-center-up" then some .autoCenterUp
  else if s = "auto-center-down" then some .autoCenterDown
  else none

/-- String tag of a `ScaleMode`. -/
def ScaleMode.value : ScaleMode → String
  | .explicit => "explicit"
  | .auto => "auto"

/-- Inverse of `ScaleMode.value`. -/
def ScaleMode.ofValue (s : String) : Option ScaleMode :=
  if s = "explicit" then some .explicit
  else if s = "auto" then some .auto
  else none

/-- Integer tag of a `VRR` value. -/
def VRR.value : VRR → ℤ
  | .off => 0
  | .on => 1
  | .fullscreen => 2

/-- Inverse of `VRR.value`. -/
def VRR.ofValue (i : ℤ) : Option VRR :=
  if i = 0 then some .off
  else if i = 1 then some .on
  else if i = 2 then some .fullscreen
  else none

/-- Integer tag of a `Transform` value. -/
def Transform.value : Transform → ℤ
  | .normal => 0
  | .rotate90 => 1
  | .rotate180 => 2
  | .rotate270 => 3
  | .flipped => 4
  | .flipped90 => 5
  | .flipped180 => 6
  | .flipped270 => 7

/-- Inverse of `Transform.value`. -/
def Transform.ofValue (i : ℤ) : Option Transform :=
  if i = 0 then some .normal
  else if i = 1 then some .rotate90
  else if i = 2 then some .rotate180
  else if i = 3 then some .rotate270
  else if i = 4 then some .flipped
  else if i = 5 then some .flipped90
  else if i = 6 then some .flipped180
  else if i = 7 then some .flipped270
  else none

/- ── Description normalisation (models.py `MonitorConfig.__post_init__`) ── -/

/-- The character list of the `" Unknown"` suffix stripped by normalisation. -/
def unknownSuffix : List Char := " Unknown".data

/-- The character list of the `"PNP("` marker unwrapped by normalisation. -/
def pnpMarker : List Char := "PNP(".data

/-- Index of the first occurrence of the two-character substring `") "`,
modelling Python `str.find(") ")` (`none` for `-1`; a list shorter than
two characters cannot contain it). -/
def findSep : List Char → Option ℕ
  | a :: b :: rest =>
    if a = ')' ∧ b = ' ' then some 0 else (findSep (b :: rest)).map (· + 1)
  | _ => none

/-- First normalisation step: drop a trailing `" Unknown"` (8 characters),
modelling `desc = desc[:-8]` guarded by `desc.endswith(" Unknown")`. -/
def stripUnknown (s : List Char) : List Char :=
  if unknownSuffix.isSuffixOf s then s.take (s.length - 8) else s

/-- Second normalisation step: unwrap a leading `"PNP(X) "` into `"X "`,
modelling `desc = desc[4:paren] + desc[paren+1:]` where `paren` is the index
of the first `") "`. -/
def unwrapPNP (s : List Char) : List Char :=
  if pnpMarker.isPrefixOf s then
    match findSep s with
    | some p => (s.take p).drop 4 ++ s.drop (p + 1)
    | none => s
  else s

/-- Description normalisation exactly as `MonitorConfig.__post_init__` does
it: strip `" Unknown"` first, then unwrap `"PNP(…) "`. -/
def normalizeDescChars (s : List Char) : List Char :=
  unwrapPNP (stripUnknown s)

/-- Normalisation lifted to `String`. -/
def normalizeDesc (s : String) : String :=
  String.mk (normalizeDescChars s.data)

/- ── MonitorConfig (models.py) ─────────────────────────────────────── -/

/-- Field record of the `MonitorConfig` dataclass.  All fields appear with
their Python defaults; floats are `ℚ`, ints are `ℤ`. -/
structure MonitorConfig where
  name : String := ""
  description : String := ""
  make : String := ""
  model : String := ""
  serial : String := ""
  width : ℤ := 1920
  height : ℤ := 1080
  refresh_rate : ℚ := 60
  resolution_mode : ResolutionMode := .explicit
  available_modes : List String := []
  x : ℤ := 0
  y : ℤ := 0
  position_mode : PositionMode := .auto
  scale : ℚ := 1
  scale_mode : ScaleMode := .explicit
  transform : Transform := .normal
  mirror_of : String := ""
  bitdepth : ℤ := 8
  vrr : VRR := .off
  color_management : String := ""
  sdr_brightness : ℚ := 1
  sdr_saturation : ℚ := 1
  hdr : Bool := false
  sdr_eotf : ℤ := 0
  supports_hdr : ℤ := 0
  supports_wide_color : ℤ := 0
  sdr_min_luminance : ℚ := 0
  sdr_max_luminance : ℚ := 0
  min_luminance : ℚ := 0
  max_luminance : ℚ := 0
  max_avg_luminance : ℚ := 0
  reserved_top : ℤ := 0
  reserved_bottom : ℤ := 0
  reserved_left : ℤ := 0
  reserved_right : ℤ := 0
  enabled : Bool := true

instance : DecidableEq MonitorConfig := fun a b =>
  decidable_of_iff (a.name = b.name ∧ a.description = b.description ∧ a.make = b.make ∧
    a.model = b.model ∧ a.serial = b.serial ∧ a.width = b.width ∧ a.height = b.height ∧
    a.refresh_rate = b.refresh_rate ∧ a.resolution_mode = b.resolution_mode ∧
    a.available_modes = b.available_modes ∧ a.x = b.x ∧ a.y = b.y ∧
    a.position_mode = b.position_mode ∧ a.scale = b.scale ∧ a.scale_mode = b.scale_mode ∧
    a.transform = b.transform ∧ a.mirror_of = b.mirror_of ∧ a.bitdepth = b.bitdepth ∧
    a.vrr = b.vrr ∧ a.color_management = b.color_management ∧
    a.sdr_brightness = b.sdr_brightness ∧ a.sdr_saturation = b.sdr_saturation ∧
    a.hdr = b.hdr ∧ a.sdr_eotf = b.sdr_eotf ∧ a.supports_hdr = b.supports_hdr ∧
    a.supports_wide_color = b.supports_wide_color ∧
    a.sdr_min_luminance = b.sdr_min_luminance ∧ a.sdr_max_luminance = b.sdr_max_luminance ∧
    a.min_luminance = b.min_luminance ∧ a.max_luminance = b.max_luminance ∧
    a.max_avg_luminance = b.max_avg_luminance ∧ a.reserved_top = b.reserved_top ∧
    a.reserved_bottom = b.reserved_bottom ∧ a.reserved_left = b.reserved_left ∧
    a.reserved_right = b.reserved_right ∧ a.enabled = b.enabled)
    (by cases a; cases b; simp)

/-- Dataclass construction: Python runs `__post_init__` on every
`MonitorConfig(...)` call, which normalises the description in place.
Every `MonitorConfig` value the program holds is in the image of this. -/
def MonitorConfig.construct (m : MonitorConfig) : MonitorConfig :=
  { m with description := normalizeDesc m.description }

/-- The `is_internal` property: the port-name segment before the first
`"-"`, upper-cased, is one of the built-in-panel connector families
(`name.split("-")[0].upper() in ("EDP", "LVDS", "DSI")`).  The first
segment of `split("-")` is the characters before the first `"-"`; port
names are ASCII, where `Char.toUpper` agrees with Python `str.upper`. -/
def MonitorConfig.is_internal (m : MonitorConfig) : Bool :=
  let pfx := (m.name.data.takeWhile (fun c => c ≠ '-')).map Char.toUpper
  pfx == "EDP".data || pfx == "LVDS".data || pfx == "DSI".data

/- ── WorkspaceRule (models.py) ─────────────────────────────────────── -/

/-- Field record of the `WorkspaceRule` dataclass. -/
structure WorkspaceRule where
  workspace : String := ""
  monitor : String := ""
  default : Bool := false
  persistent : Bool := false
  rounding : ℤ := -1
  decorate : ℤ := -1
  gapsin : ℤ := -1
  gapsout : ℤ := -1
  border : ℤ := -1
  bordersize : ℤ := -1
  on_created_empty : String := ""

instance : DecidableEq WorkspaceRule := fun a b =>
  decidable_of_iff (a.workspace = b.workspace ∧ a.monitor = b.monitor ∧
    a.default = b.default ∧ a.persistent = b.persistent ∧ a.rounding = b.rounding ∧
    a.decorate = b.decorate ∧ a.gapsin = b.gapsin ∧ a.gapsout = b.gapsout ∧
    a.border = b.border ∧ a.bordersize = b.bordersize ∧
    a.on_created_empty = b.on_created_empty)
    (by cases a; cases b; simp)

/- ── Profile (models.py) ───────────────────────────────────────────── -/

/-- Field record of the `Profile` dataclass. -/
structure Profile where
  name : String := ""
  monitors : List MonitorConfig := []
  workspace_rules : List WorkspaceRule := []

instance : DecidableEq Profile := fun a b =>
  decidable_of_iff (a.name = b.name ∧ a.monitors = b.monitors ∧
    a.workspace_rules = b.workspace_rules)
    (by cases a; cases b; simp)

/-- Lexicographic comparison of character lists by code point, the order
Python uses to compare strings. -/
def charsLe : List Char → List Char → Bool
  | [], _ => true
  | _ :: _, [] => false
  | a :: as, b :: bs => if a < b then true else if b < a then false else charsLe as bs

/-- String comparison by code points (Python `<=` on `str`). -/
def strLe (a b : String) : Bool := charsLe a.data b.data

/-- Insert into a sorted list, keeping earlier elements first among
equals. -/
def insertSorted (a : String) : List String → List String
  | [] => [a]
  | b :: t => if strLe a b then a :: b :: t else b :: insertSorted a t

/-- Python `sorted` on strings: a stable ascending sort (realised as
insertion sort, which computes the same list as any stable sort). -/
def sortStrings (l : List String) : List String := l.foldr insertSorted []

/-- The `fingerprint` property: sorted list of the non-empty monitor
descriptions (`sorted(m.description for m in self.monitors if m.description)`). -/
def Profile.fingerprint (p : Profile) : List String :=
  sortStrings (p.monitors.filterMap fun m =>
    if m.description ≠ "" then some m.description else none)

/- ── Clamshell helpers (models.py) ─────────────────────────────────── -/

/-- The `apply_clamshell` function.  The Python version mutates the list
elements in place and returns a `bool`; here the changed flag and the
resulting list are returned as a pair. -/
def apply_clamshell (mons : List MonitorConfig) : Bool × List MonitorConfig :=
  let internals := mons.filter fun m => m.is_internal && m.enabled
  let externals := mons.filter fun m => !m.is_internal && m.enabled
  if internals.isEmpty || externals.isEmpty then
    (false, mons)
  else
    (true, mons.map fun m =>
      if m.is_internal && m.enabled then { m with enabled := false } else m)

/-- The `undo_clamshell` function: re-enable every disabled internal
monitor; the flag records whether any monitor changed. -/
def undo_clamshell (mons : List MonitorConfig) : Bool × List MonitorConfig :=
  (mons.any fun m => m.is_internal && !m.enabled,
   mons.map fun m =>
     if m.is_internal && !m.enabled then { m with enabled := true } else m)

/- ── Serialisation (models.py `to_dict` / `from_dict`) ─────────────── -/

/-- The dict produced by `MonitorConfig.to_dict`: every dataclass field
with the five enum fields replaced by their string/int tags. -/
structure MonitorDict where
  name : String
  description : String
  make : String
  model : String
  serial : String
  width : ℤ
  height : ℤ
  refresh_rate : ℚ
  resolution_mode : String
  available_modes : List String
  x : ℤ
  y : ℤ
  position_mode : String
  scale : ℚ
  scale_mode : String
  transform : ℤ
  mirror_of : String
  bitdepth : ℤ
  vrr : ℤ
  color_management : String
  sdr_brightness : ℚ
  sdr_saturation : ℚ
  hdr : Bool
  sdr_eotf : ℤ
  supports_hdr : ℤ
  supports_wide_color : ℤ
  sdr_min_luminance : ℚ
  sdr_max_luminance : ℚ
  min_luminance : ℚ
  max_luminance : ℚ
  max_avg_luminance : ℚ
  reserved_top : ℤ
  reserved_bottom : ℤ
  reserved_left : ℤ
  reserved_right : ℤ
  enabled : Bool

/-- Serialisation of a `MonitorConfig` (`asdict` plus enum `.value` tags). -/
def MonitorConfig.to_dict (m : MonitorConfig) : MonitorDict :=
  { name := m.name
    description := m.description
    make := m.make
    model := m.model
    serial := m.serial
    width := m.width
    height := m.height
    refresh_rate := m.refresh_rate
    resolution_mode := m.resolution_mode.value
    available_modes := m.available_modes
    x := m.x
    y := m.y
    position_mode := m.position_mode.value
    scale := m.scale
    scale_mode := m.scale_mode.value
    transform := m.transform.value
    mirror_of := m.mirror_of
    bitdepth := m.bitdepth
    vrr := m.vrr.value
    color_management := m.color_management
    sdr_brightness := m.sdr_brightness
    sdr_saturation := m.sdr_saturation
    hdr := m.hdr
    sdr_eotf := m.sdr_eotf
    supports_hdr := m.supports_hdr
    supports_wide_color := m.supports_wide_color
    sdr_min_luminance := m.sdr_min_luminance
    sdr_max_luminance := m.sdr_max_luminance
    min_luminance := m.min_luminance
    max_luminance := m.max_luminance
    max_avg_luminance := m.max_avg_luminance
    reserved_top := m.reserved_top
    reserved_bottom := m.reserved_bottom
    reserved_left := m.reserved_left
    reserved_right := m.reserved_right
    enabled := m.enabled }

/-- Deserialisation of a `MonitorConfig`.  Decoding an unknown enum tag
raises `ValueError` in Python, hence `Option`; the final step is dataclass
construction, which re-runs the description normalisation. -/
def MonitorConfig.from_dict (d : MonitorDict) : Option MonitorConfig := do
  let rm ← ResolutionMode.ofValue d.resolution_mode
  let pm ← PositionMode.ofValue d.position_mode
  let sm ← ScaleMode.ofValue d.scale_mode
  let tf ← Transform.ofValue d.transform
  let vr ← VRR.ofValue d.vrr
  some (MonitorConfig.construct
    { name := d.name
      description := d.description
      make := d.make
      model := d.model
      serial := d.serial
      width := d.width
      height := d.height
      refresh_rate := d.refresh_rate
      resolution_mode := rm
      available_modes := d.available_modes
      x := d.x
      y := d.y
      position_mode := pm
      scale := d.scale
      scale_mode := sm
      transform := tf
      mirror_of := d.mirror_of
      bitdepth := d.bitdepth
      vrr := vr
      color_management := d.color_management
      sdr_brightness := d.sdr_brightness
      sdr_saturation := d.sdr_saturation
      hdr := d.hdr
      sdr_eotf := d.sdr_eotf
      supports_hdr := d.supports_hdr
      supports_wide_color := d.supports_wide_color
      sdr_min_luminance := d.sdr_min_luminance
      sdr_max_luminance := d.sdr_max_luminance
      min_luminance := d.min_luminance
      max_luminance := d.max_luminance
      max_avg_luminance := d.max_avg_luminance
      reserved_top := d.reserved_top
      reserved_bottom := d.reserved_bottom
      reserved_left := d.reserved_left
      reserved_right := d.reserved_right
      enabled := d.enabled })

/-- The dict produced by `WorkspaceRule.to_dict` (`asdict`): all fields are
primitives, so it has the same shape as the rule itself. -/
structure WorkspaceRuleDict where
  workspace : String
  monitor : String
  default : Bool
  persistent : Bool
  rounding : ℤ
  decorate : ℤ
  gapsin : ℤ
  gapsout : ℤ
  border : ℤ
  bordersize : ℤ
  on_created_empty : String

/-- Serialisation of a `WorkspaceRule`. -/
def WorkspaceRule.to_dict (w : WorkspaceRule) : WorkspaceRuleDict :=
  { workspace := w.workspace
    monitor := w.monitor
    default := w.default
    persistent := w.persistent
    rounding := w.rounding
    decorate := w.decorate
    gapsin := w.gapsin
    gapsout := w.gapsout
    border := w.border
    bordersize := w.bordersize
    on_created_empty := w.on_created_empty }

/-- Deserialisation of a `WorkspaceRule` (`cls(**…)`, no post-processing,
never raises). -/
def WorkspaceRule.from_dict (d : WorkspaceRuleDict) : WorkspaceRule :=
  { workspace := d.workspace
    monitor := d.monitor
    default := d.default
    persistent := d.persistent
    rounding := d.rounding
    decorate := d.decorate
    gapsin := d.gapsin
    gapsout := d.gapsout
    border := d.border
    bordersize := d.bordersize
    on_created_empty := d.on_created_empty }

/-- The dict produced by `Profile.to_dict`. -/
structure ProfileDict where
  name : String
  monitors : List MonitorDict
  workspace_rules : List WorkspaceRuleDict

/-- Serialisation of a `Profile`. -/
def Profile.to_dict (p : Profile) : ProfileDict :=
  { name := p.name
    monitors := p.monitors.map MonitorConfig.to_dict
    workspace_rules := p.workspace_rules.map WorkspaceRule.to_dict }

/-- Deserialisation of a `Profile`; fails if any monitor entry fails. -/
def Profile.from_dict (d : ProfileDict) : Option Profile := do
  let mons ← d.monitors.mapM MonitorConfig.from_dict
  some { name := d.name
         monitors := mons
         workspace_rules := d.workspace_rules.map WorkspaceRule.from_dict }

/- ── ProfileManager.find_best_match (profile_manager.py) ───────────── -/

/-- Lookup in `current_state = dict keyed by description`.  The Python dict
comprehension lets a later monitor with the same description overwrite an
earlier one, so the last occurrence wins — exactly what this left fold
computes. -/
def lookupDesc (mons : List MonitorConfig) (d : String) : Option MonitorConfig :=
  mons.foldl (fun acc m => if m.description = d then some m else acc) none

/-- Full-geometry comparison used for `config_matches`: position, scale,
transform and resolution all agree with the live monitor. -/
def geomEq (m cur : MonitorConfig) : Prop :=
  m.x = cur.x ∧ m.y = cur.y ∧ m.scale = cur.scale ∧
    m.transform = cur.transform ∧ m.width = cur.width ∧ m.height = cur.height

instance : DecidablePred fun mc : MonitorConfig × MonitorConfig => geomEq mc.1 mc.2 :=
  fun _ => by unfold geomEq; infer_instance

instance (m cur : MonitorConfig) : Decidable (geomEq m cur) := by
  unfold geomEq; infer_instance

/-- Tie-break counters accumulated per candidate profile. -/
structure MatchCounts where
  enabled_matches : ℕ
  config_matches : ℕ
  total_compared : ℕ
  missing_enabled : ℕ
  ext_enabled : ℕ

/-- One iteration of the `for m in profile.monitors` loop of
`find_best_match`, updating the tie-break counters for profile monitor `m`
against the live state `cs`. -/
def countsStep (cs : List MonitorConfig) (acc : MatchCounts) (m : MonitorConfig) :
    MatchCounts :=
  match lookupDesc cs m.description with
  | none =>
    if m.enabled then { acc with missing_enabled := acc.missing_enabled + 1 } else acc
  | some cur =>
    let acc1 := { acc with total_compared := acc.total_compared + 1 }
    let acc2 :=
      if m.enabled && !cur.is_internal then
        { acc1 with ext_enabled := acc1.ext_enabled + 1 }
      else acc1
    if m.enabled && !cur.enabled && cur.is_internal then
      { acc2 with enabled_matches := acc2.enabled_matches + 1
                  config_matches := acc2.config_matches + 1 }
    else if m.enabled ≠ cur.enabled then acc2
    else
      let acc3 := { acc2 with enabled_matches := acc2.enabled_matches + 1 }
      if !m.enabled && !cur.enabled then
        { acc3 with config_matches := acc3.config_matches + 1 }
      else if geomEq m cur then
        { acc3 with config_matches := acc3.config_matches + 1 }
      else acc3

/-- The tie-break counters of a candidate profile.  The whole comparison
block is guarded by `if current_monitors:` in Python, so an empty (or
absent) live-monitor list leaves every counter at zero. -/
def computeCounts (cs : List MonitorConfig) (p : Profile) : MatchCounts :=
  if cs.isEmpty then ⟨0, 0, 0, 0, 0⟩
  else p.monitors.foldl (countsStep cs) ⟨0, 0, 0, 0, 0⟩

/-- Jaccard similarity of the current fingerprint set and a profile
fingerprint set: `|intersection| / |union|` as the code computes it
(`len(current_set & profile_set) / len(current_set | profile_set)`). -/
def jaccardScore (cur fp : List String) : ℚ :=
  ((cur.toFinset ∩ fp.toFinset).card : ℚ) / ((cur.toFinset ∪ fp.toFinset).card : ℚ)

/-- The counter increments a single profile monitor contributes (its loop
iteration starting from zeroed counters). -/
def contribCounts (cs : List MonitorConfig) (m : MonitorConfig) : MatchCounts :=
  countsStep cs ⟨0, 0, 0, 0, 0⟩ m

/-- Componentwise sum of counters. -/
def addCounts (a b : MatchCounts) : MatchCounts :=
  ⟨a.enabled_matches + b.enabled_matches, a.config_matches + b.config_matches,
   a.total_compared + b.total_compared, a.missing_enabled + b.missing_enabled,
   a.ext_enabled + b.ext_enabled⟩

/-- A compared pair that counts as both an enabled-state match and a full
config match: either the clamshell special case (profile-enabled monitor
whose live counterpart is a disabled internal display), or matching
enabled state together with full geometry (or both sides disabled). -/
def pairFullMatch (m live : MonitorConfig) : Prop :=
  (m.enabled = true ∧ live.enabled = false ∧ live.is_internal = true) ∨
  (m.enabled = live.enabled ∧
    ((m.enabled = false ∧ live.enabled = false) ∨ geomEq m live))

/-- The sort key tuple `(score, -missing_enabled, ext_enabled,
enabled_matches, config_matches)`, ordered lexicographically as Python
orders tuples. -/
abbrev MatchKey := ℚ ×ₗ ℤ ×ₗ ℕ ×ₗ ℕ ×ₗ ℕ

/-- Build a sort key from the similarity score and the four tie-breakers. -/
def MatchKey.make (score : ℚ) (negMissing : ℤ) (e en cf : ℕ) : MatchKey :=
  toLex (score, toLex (negMissing, toLex (e, toLex (en, cf))))

/-- One surviving candidate: its sort key and the profile. -/
structure Cand where
  key : MatchKey
  profile : Profile

/-- The body of the candidate loop of `find_best_match` for one stored
profile: `none` models every `continue`. -/
def candidateOf (cur : List String) (cs : List MonitorConfig) (exact_config : Bool)
    (p : Profile) : Option Cand :=
  let fp := p.fingerprint
  if fp = [] then none else
  let inter := (cur.toFinset ∩ fp.toFinset).card
  let uni := (cur.toFinset ∪ fp.toFinset).card
  if uni = 0 then none else
  let score : ℚ := (inter : ℚ) / (uni : ℚ)
  if score < 1/2 then none else
  let c := computeCounts cs p
  if exact_config ∧ cs.isEmpty = false ∧ 0 < c.total_compared ∧
      (0 < c.missing_enabled ∨ c.enabled_matches ≠ c.total_compared ∨
        c.config_matches ≠ c.total_compared) then none
  else
    some ⟨MatchKey.make score (-(c.missing_enabled : ℤ)) c.ext_enabled
            c.enabled_matches c.config_matches, p⟩

/-- Candidate selection: Python sorts the candidate list by key descending
with a stable sort and takes element 0, i.e. the leftmost candidate with
the maximal key.  Replacing the running best only on a strictly greater
key computes exactly that element. -/
def pickBest (best x : Cand) : Cand :=
  if best.key < x.key then x else best

/-- The `find_best_match` method of `ProfileManager`, with the stored
profiles (`self.list_all()`) passed explicitly. -/
def findBestMatch (stored : List Profile) (cur : List String)
    (cs : List MonitorConfig) (exact_config : Bool) : Option Profile :=
  if cur = [] then none else
  match stored.filterMap (candidateOf cur cs exact_config) with
  | [] => none
  | c :: rest => some ((rest.foldl pickBest c).profile)

/- ── MonitorDaemon (daemon.py) ─────────────────────────────────────── -/

/-- The daemon fields consulted by the skip checks in
`_apply_best_profile`: the last applied profile name, the one before it,
and the monotonic time of the last apply. -/
structure DaemonState where
  last_applied_profile : Option String
  prev_applied_profile : Option String
  last_apply_time : ℚ

/-- The two skip checks run before an apply (daemon.py lines 221–236):
skip when the matched name equals the last applied profile, and skip when
it equals the profile applied two applies ago and less than 30 seconds
have elapsed since the last apply.  Returns `true` when the apply
proceeds. -/
def applyDecision (s : DaemonState) (now : ℚ) (matched : String) (force : Bool) :
    Bool :=
  if force = false ∧ s.last_applied_profile = some matched then false
  else if force = false ∧ s.prev_applied_profile = some matched ∧
      now - s.last_apply_time < 30 then false
  else true

/-- The daemon-state update performed after a successful apply
(daemon.py lines 302–304). -/
def recordApply (s : DaemonState) (now : ℚ) (matched : String) : DaemonState :=
  { last_apply_time := now
    prev_applied_profile := s.last_applied_profile
    last_applied_profile := some matched }

/-- Second safety pass (daemon.py lines 278–283): enable the first profile
monitor whose description is currently connected, stopping at the first
hit (`break`); `none` when no profile monitor is connected. -/
def enableFirstConnected :
    List MonitorConfig → List String → Option (List MonitorConfig)
  | [], _ => none
  | m :: rest, connected =>
    if connected.contains m.description then
      some ({ m with enabled := true } :: rest)
    else (enableFirstConnected rest connected).map (m :: ·)

/-- The safety step of `_apply_best_profile` (daemon.py lines 261–289),
run after clamshell pre-processing on the profile's monitors with the set
of currently-connected descriptions.  `some` is the monitor list the apply
goes on to write; `none` models the abort (`return` with no config
written). -/
def safetyFix (mons : List MonitorConfig) (connected : List String) :
    Option (List MonitorConfig) :=
  if mons.any (fun m => m.enabled && connected.contains m.description) then
    some mons
  else if mons.any (fun m => m.is_internal && connected.contains m.description) then
    some (mons.map fun m =>
      if m.is_internal && connected.contains m.description then
        { m with enabled := true }
      else m)
  else enableFirstConnected mons connected

/- ── CompositorClient apply signatures (hyprland.py, sway.py, niri.py) ── -/

/-- The three compositor backends. -/
inductive Backend where
  | hyprland | sway | niri
deriving DecidableEq, Repr

/-- The keyword parameters each client's `apply_profile` accepts:
`HyprlandIPC.apply_profile(self, profile, *, update_sddm=True)` versus
`SwayIPC.apply_profile(self, profile, *, update_sddm=True,
update_greetd=True, use_description=False)` and the identical Niri
signature. -/
def acceptedApplyKeywords : Backend → List String
  | .hyprland => ["update_sddm"]
  | .sway => ["update_sddm", "update_greetd", "use_description"]
  | .niri => ["update_sddm", "update_greetd", "use_description"]

/-- The keyword arguments the daemon passes at its apply call site
(daemon.py lines 298–301): `update_sddm`, `update_greetd` and
`use_description`. -/
def daemonApplyKeywords : List String :=
  ["update_sddm", "update_greetd", "use_description"]

/-- Python keyword-argument binding for a call
`ipc.apply_profile(profile, **kwargs)`: an unexpected keyword raises
`TypeError` before the method body runs. -/
def callApplyProfile (b : Backend) (kwargs : List String) : Except String Unit :=
  if kwargs.all (fun k => (acceptedApplyKeywords b).contains k) then .ok ()
  else .error "TypeError: apply_profile got an unexpected keyword argument"

/- ── Concrete inputs used by witnesses and the counterexample ──────── -/

/-- A reachable profile whose monitor was constructed from the raw
description `"A Unknown Unknown"` (stored, after one normalisation, as
`"A Unknown"`). -/
def roundtripCexProfile : Profile :=
  { name := "laptop",
    monitors := [MonitorConfig.construct { description := "A Unknown Unknown" }] }

/-- A profile whose monitor descriptions are normalisation fixed points. -/
def roundtripWitnessProfile : Profile :=
  { name := "desk",
    monitors := [{ name := "DP-1", description := "LG Display" },
                 { name := "eDP-1", description := "Internal Panel", x := 1920 }],
    workspace_rules := [{ workspace := "1", monitor := "DP-1" }] }

/-- A disabled internal panel used by witnesses. -/
def disabledPanel : MonitorConfig :=
  { name := "eDP-1", description := "Internal Panel", enabled := false }

/-- A stored profile with fingerprint `["A"]`. -/
def profileA : Profile :=
  { name := "A", monitors := [{ name := "DP-3", description := "A" }] }

/-- A stored profile with fingerprint `["A", "B"]`. -/
def profileAB : Profile :=
  { name := "AB", monitors := [{ name := "DP-1", description := "A" },
                               { name := "DP-2", description := "B" }] }

/- ── Helper lemmas ─────────────────────────────────────────────────── -/

/-- Mapping a function with a fixed point at every element is the
identity. -/
theorem map_id_of_mem {α : Type} (f : α → α) :
    ∀ l : List α, (∀ a ∈ l, f a = a) → l.map f = l
  | [], _ => rfl
  | a :: t, h => by
    have ht := map_id_of_mem f t fun x hx => h x (List.mem_cons_of_mem a hx)
    simp [h a (List.mem_cons_self a t), ht]

/-- Mapping a function that moves some element is not the identity. -/
theorem map_ne_self_of_mem {α : Type} (f : α → α) :
    ∀ l : List α, (∃ a ∈ l, f a ≠ a) → l.map f ≠ l
  | a :: t, h => by
    rcases h with ⟨x, hx, hfx⟩
    rcases List.mem_cons.mp hx with rfl | hxt
    · simp only [List.map_cons, ne_eq, List.cons.injEq, not_and]
      exact fun hc => absurd hc hfx
    · simp only [List.map_cons, ne_eq, List.cons.injEq, not_and]
      exact fun _ => map_ne_self_of_mem f t ⟨x, hxt, hfx⟩

/-- A monitor whose `enabled` flag is overwritten with a different value
is a different record. -/
theorem update_enabled_ne (m : MonitorConfig) (b : Bool) (h : m.enabled ≠ b) :
    ({ m with enabled := b } : MonitorConfig) ≠ m := by
  intro hc
  exact h (by rw [← hc])

/- ── Claim theorems ────────────────────────────────────────────────── -/

/-- C9: the spec claims `apply` is uniform across the three compositor
clients under the option set the daemon passes (daemon.py lines 298–301).
It is not: `HyprlandIPC.apply_profile` accepts only `update_sddm`, so the
daemon's call — which also passes `update_greetd` and `use_description` —
raises `TypeError` on the Hyprland backend before anything is written,
while the identical call succeeds in binding on Sway and Niri. -/
theorem apply_profile_keywords_bug :
    (callApplyProfile .hyprland daemonApplyKeywords =
      .error "TypeError: apply_profile got an unexpected keyword argument") ∧
    callApplyProfile .sway daemonApplyKeywords = .ok () ∧
    callApplyProfile .niri daemonApplyKeywords = .ok () :=
  ⟨rfl, rfl, rfl⟩

/-- C4: after applying profile `a` and then profile `b`, a non-forced
apply of `a` again less than 30 seconds after the `b` apply is skipped —
either by the already-applied check (when `a = b`) or by the A→B→A loop
suppression (when `a ≠ b`), since `a` is then the profile applied two
applies ago. -/
theorem loop_suppression (s : DaemonState) (t1 t2 t3 : ℚ) (a b : String)
    (h : t3 - t2 < 30) :
    applyDecision (recordApply (recordApply s t1 a) t2 b) t3 a false = false := by
  by_cases hab : b = a
  · simp [applyDecision, recordApply, hab]
  · simp [applyDecision, recordApply, hab, h]

/-- Witness for `loop_suppression` at concrete inputs. -/
theorem loop_suppression_witness :
    ((25 : ℚ) - 2 < 30) ∧
    applyDecision (recordApply (recordApply ⟨none, none, 0⟩ 1 "A") 2 "B") 25 "A"
      false = false :=
  ⟨by norm_num, loop_suppression ⟨none, none, 0⟩ 1 2 25 "A" "B" (by norm_num)⟩

/-- C5: `apply_clamshell` makes no change and reports `false` whenever the
list has an enabled internal monitor but no enabled external monitor, and
it reports `true` (disabling internals) only when an enabled external
monitor is present. -/
theorem apply_clamshell_safety (mons : List MonitorConfig) :
    ((∃ m ∈ mons, m.is_internal = true ∧ m.enabled = true) →
      (∀ m ∈ mons, m.is_internal = false → m.enabled = false) →
      apply_clamshell mons = (false, mons))
  ∧ ((apply_clamshell mons).1 = true →
      ∃ m ∈ mons, m.is_internal = false ∧ m.enabled = true) := by
  constructor
  · intro _ hext
    have hfil : mons.filter (fun m => !m.is_internal && m.enabled) = [] := by
      rw [List.filter_eq_nil_iff]
      intro m hm
      cases hi : m.is_internal with
      | true => simp [hi]
      | false => simp [hi, hext m hm hi]
    unfold apply_clamshell
    rw [hfil]
    simp
  · intro hflag
    unfold apply_clamshell at hflag
    by_cases hc : ((mons.filter fun m => m.is_internal && m.enabled).isEmpty ||
        (mons.filter fun m => !m.is_internal && m.enabled).isEmpty) = true
    · rw [if_pos hc] at hflag
      exact absurd hflag (by simp)
    · have hext : (mons.filter fun m => !m.is_internal && m.enabled) ≠ [] := by
        intro hnil
        exact hc (by simp [hnil])
      rcases List.exists_mem_of_ne_nil _ hext with ⟨m, hm⟩
      have := List.mem_filter.mp hm
      refine ⟨m, this.1, ?_, ?_⟩
      · have hpred := this.2
        cases hi : m.is_internal <;> simp_all
      · have hpred := this.2
        cases he : m.enabled <;> simp_all

/-- Witness for `apply_clamshell_safety`: a single enabled internal panel
with no external monitor is left untouched. -/
theorem apply_clamshell_safety_witness :
    (∃ m ∈ [({ name := "eDP-1", description := "Internal Panel" } : MonitorConfig)],
      m.is_internal = true ∧ m.enabled = true) ∧
    apply_clamshell [({ name := "eDP-1", description := "Internal Panel" } : MonitorConfig)]
      = (false, [({ name := "eDP-1", description := "Internal Panel" } : MonitorConfig)]) :=
  ⟨by decide,
    (apply_clamshell_safety _).1 (by decide) (by decide)⟩

/-- C10: both clamshell helpers preserve the length and order of the list
and change nothing but `enabled` flags, `undo_clamshell` never touches a
non-internal monitor, and each returns `true` exactly when it changed at
least one monitor's flag. -/
theorem clamshell_frame_conditions (mons : List MonitorConfig) :
    ((apply_clamshell mons).2.length = mons.length ∧
     (undo_clamshell mons).2.length = mons.length)
  ∧ (List.Forall₂ (fun a b => b = { a with enabled := b.enabled }) mons
       (apply_clamshell mons).2 ∧
     List.Forall₂ (fun a b => b = { a with enabled := b.enabled }) mons
       (undo_clamshell mons).2)
  ∧ List.Forall₂ (fun a b => a.is_internal = false → b = a) mons
      (undo_clamshell mons).2
  ∧ ((apply_clamshell mons).1 = true ↔ (apply_clamshell mons).2 ≠ mons)
  ∧ ((undo_clamshell mons).1 = true ↔ (undo_clamshell mons).2 ≠ mons) := by
  have happly : apply_clamshell mons =
      if ((mons.filter fun m => m.is_internal && m.enabled).isEmpty ||
          (mons.filter fun m => !m.is_internal && m.enabled).isEmpty) then
        (false, mons)
      else
        (true, mons.map fun m =>
          if m.is_internal && m.enabled then { m with enabled := false } else m) := rfl
  have frameApply : List.Forall₂ (fun a b => b = { a with enabled := b.enabled }) mons
      (apply_clamshell mons).2 := by
    rw [happly]
    split
    · exact (List.forall₂_same).mpr fun a _ => rfl
    · show List.Forall₂ _ mons (mons.map _)
      rw [List.forall₂_map_right_iff]
      refine (List.forall₂_same).mpr fun a _ => ?_
      split <;> rfl
  have frameUndo : List.Forall₂ (fun a b => b = { a with enabled := b.enabled }) mons
      (undo_clamshell mons).2 := by
    show List.Forall₂ _ mons (mons.map _)
    rw [List.forall₂_map_right_iff]
    refine (List.forall₂_same).mpr fun a _ => ?_
    split <;> rfl
  refine ⟨⟨?_, ?_⟩, ⟨frameApply, frameUndo⟩, ?_, ?_, ?_⟩
  · exact (List.Forall₂.length_eq frameApply).symm
  · exact (List.Forall₂.length_eq frameUndo).symm
  · show List.Forall₂ _ mons (mons.map _)
    rw [List.forall₂_map_right_iff]
    refine (List.forall₂_same).mpr fun a _ hint => ?_
    have hcond : (a.is_internal && !a.enabled) = false := by simp [hint]
    simp [hcond]
  · rw [happly]
    split
    · simp
    · rename_i hc
      simp only [true_iff, ne_eq]
      have hint : (mons.filter fun m => m.is_internal && m.enabled) ≠ [] := by
        intro hnil
        exact hc (by simp [hnil])
      rcases List.exists_mem_of_ne_nil _ hint with ⟨m, hm⟩
      have hmem := List.mem_filter.mp hm
      have hflags : m.is_internal = true ∧ m.enabled = true := by
        simpa using hmem.2
      refine map_ne_self_of_mem _ mons ⟨m, hmem.1, ?_⟩
      rw [if_pos hmem.2]
      exact update_enabled_ne m false (by simp [hflags.2])
  · show (mons.any _) = true ↔ (mons.map _) ≠ mons
    constructor
    · intro hany
      rcases List.any_eq_true.mp hany with ⟨m, hm, hp⟩
      have hflags : m.is_internal = true ∧ m.enabled = false := by
        simpa using hp
      refine map_ne_self_of_mem _ mons ⟨m, hm, ?_⟩
      rw [if_pos hp]
      exact update_enabled_ne m true (by simp [hflags.2])
    · intro hne
      by_contra hany
      refine hne (map_id_of_mem _ mons fun a ha => ?_)
      have hcond : (a.is_internal && !a.enabled) = false := by
        cases hc : (a.is_internal && !a.enabled)
        · rfl
        · exact absurd (List.any_eq_true.mpr ⟨a, ha, hc⟩) hany
      simp [hcond]

/-- Witness for `clamshell_frame_conditions`: re-enabling a disabled
internal panel reports a change. -/
theorem clamshell_frame_conditions_witness :
    (undo_clamshell [disabledPanel]).1 = true
  ↔ (undo_clamshell [disabledPanel]).2 ≠ [disabledPanel] :=
  (clamshell_frame_conditions [disabledPanel]).2.2.2.2

/-- Prepending `"PNP("` to a list without a `") "` occurrence gives a list
without a `") "` occurrence. -/
theorem findSep_pnp_none (x : List Char) (hx : findSep x = none) :
    findSep (pnpMarker ++ x) = none := by
  have h4 : findSep ('(' :: x) = none := by
    cases x with
    | nil => rfl
    | cons b t =>
      rw [show findSep ('(' :: b :: t) =
        if ('(' : Char) = ')' ∧ b = ' ' then some 0
        else (findSep (b :: t)).map (· + 1) from rfl]
      rw [hx]
      simp
  show findSep ('P' :: 'N' :: 'P' :: '(' :: x) = none
  cases x with
  | nil => rfl
  | cons b t =>
    rw [show findSep ('P' :: 'N' :: 'P' :: '(' :: b :: t) =
      if ('P' : Char) = ')' ∧ ('N' : Char) = ' ' then some 0
      else (findSep ('N' :: 'P' :: '(' :: b :: t)).map (· + 1) from rfl]
    rw [show findSep ('N' :: 'P' :: '(' :: b :: t) =
      if ('N' : Char) = ')' ∧ ('P' : Char) = ' ' then some 0
      else (findSep ('P' :: '(' :: b :: t)).map (· + 1) from rfl]
    rw [show findSep ('P' :: '(' :: b :: t) =
      if ('P' : Char) = ')' ∧ ('(' : Char) = ' ' then some 0
      else (findSep ('(' :: b :: t)).map (· + 1) from rfl]
    rw [h4]
    simp

/-- The first `") "` of `x ++ ") " ++ rest` is at index `x.length` when `x`
itself contains none. -/
theorem findSep_append_marker (x rest : List Char) (hx : findSep x = none) :
    findSep (x ++ ')' :: ' ' :: rest) = some x.length := by
  induction x with
  | nil =>
    show findSep (')' :: ' ' :: rest) = some 0
    rw [findSep]
    simp
  | cons a t ih =>
    cases t with
    | nil =>
      show findSep (a :: ')' :: ' ' :: rest) = some 1
      rw [show findSep (a :: ')' :: ' ' :: rest) =
        if a = ')' ∧ (')' : Char) = ' ' then some 0
        else (findSep (')' :: ' ' :: rest)).map (· + 1) from rfl]
      have h0 : findSep (')' :: ' ' :: rest) = some 0 := by rw [findSep]; simp
      rw [h0]
      simp
    | cons b t' =>
      rw [show (a :: b :: t') ++ ')' :: ' ' :: rest
          = a :: ((b :: t') ++ ')' :: ' ' :: rest) from rfl]
      rw [show findSep (a :: ((b :: t') ++ ')' :: ' ' :: rest))
          = if a = ')' ∧ b = ' ' then some 0
            else (findSep ((b :: t') ++ ')' :: ' ' :: rest)).map (· + 1) from rfl]
      rw [findSep] at hx
      by_cases hab : a = ')' ∧ b = ' '
      · rw [if_pos hab] at hx
        exact absurd hx (by simp)
      · rw [if_neg hab] at hx
        have hbt : findSep (b :: t') = none := by
          cases hfs : findSep (b :: t')
          · rfl
          · rw [hfs] at hx; exact absurd hx (by simp)
        rw [if_neg hab, ih hbt]
        simp [List.length_cons]

/-- C6: description normalisation on construction.  First conjunct: a
description with the `" Unknown"` suffix normalises to its prefix with
that 8-character suffix removed (then subject to the `PNP` rule, which
leaves any non-`"PNP(…) …"` prefix unchanged).  Second conjunct: a
description of the form `"PNP(X) rest"` — with the shown `") "` the first
occurrence and no trailing `" Unknown"` — normalises to `"X rest"`.
Third conjunct: a description with neither a trailing `" Unknown"` nor a
`"PNP("` prefix with a `") "` separator is unchanged. -/
theorem description_normalization :
    (∀ t : List Char, normalizeDescChars (t ++ unknownSuffix) = unwrapPNP t)
  ∧ (∀ x rest : List Char, findSep x = none →
      unknownSuffix.isSuffixOf (pnpMarker ++ x ++ ')' :: ' ' :: rest) = false →
      normalizeDescChars (pnpMarker ++ x ++ ')' :: ' ' :: rest) = x ++ ' ' :: rest)
  ∧ (∀ s : List Char, unknownSuffix.isSuffixOf s = false →
      (pnpMarker.isPrefixOf s = false ∨ findSep s = none) →
      normalizeDescChars s = s) := by
  refine ⟨?_, ?_, ?_⟩
  · intro t
    have hsuf : unknownSuffix.isSuffixOf (t ++ unknownSuffix) = true :=
      List.isSuffixOf_iff_suffix.mpr (List.suffix_append t unknownSuffix)
    unfold normalizeDescChars stripUnknown
    rw [if_pos hsuf, List.length_append]
    rw [show (t.length + unknownSuffix.length) - 8 = t.length from by
      simp [unknownSuffix]]
    rw [List.take_left]
  · intro x rest hx hnu
    have hlen : (pnpMarker ++ x).length = 4 + x.length := by
      simp [pnpMarker]
      omega
    have hsep : findSep ((pnpMarker ++ x) ++ ')' :: ' ' :: rest)
        = some (4 + x.length) := by
      rw [findSep_append_marker _ rest (findSep_pnp_none x hx), hlen]
    have hpre : pnpMarker.isPrefixOf ((pnpMarker ++ x) ++ ')' :: ' ' :: rest)
        = true := by
      rw [List.append_assoc]
      exact List.isPrefixOf_iff_prefix.mpr (List.prefix_append pnpMarker _)
    have hstrip : stripUnknown ((pnpMarker ++ x) ++ ')' :: ' ' :: rest)
        = (pnpMarker ++ x) ++ ')' :: ' ' :: rest := by
      unfold stripUnknown
      rw [if_neg (by rw [hnu]; exact Bool.false_ne_true)]
    unfold normalizeDescChars
    rw [hstrip]
    unfold unwrapPNP
    rw [if_pos hpre, hsep]
    dsimp only
    rw [List.take_left' hlen]
    rw [List.drop_left' (show pnpMarker.length = 4 from rfl)]
    have hdrop : List.drop (4 + x.length + 1) ((pnpMarker ++ x) ++ ')' :: ' ' :: rest)
        = ' ' :: rest := by
      have hsplit : List.drop (4 + x.length + 1) ((pnpMarker ++ x) ++ ')' :: ' ' :: rest)
          = List.drop 1 (List.drop (4 + x.length)
              ((pnpMarker ++ x) ++ ')' :: ' ' :: rest)) := by
        rw [List.drop_drop]
      rw [hsplit, List.drop_left' hlen]
      rfl
    rw [hdrop]
  · intro s hnu hpnp
    have hstrip : stripUnknown s = s := by
      unfold stripUnknown
      rw [if_neg (by rw [hnu]; exact Bool.false_ne_true)]
    unfold normalizeDescChars
    rw [hstrip]
    unfold unwrapPNP
    rcases hpnp with h | h
    · rw [if_neg (by rw [h]; exact Bool.false_ne_true)]
    · by_cases hp : pnpMarker.isPrefixOf s = true
      · rw [if_pos hp, h]
      · rw [if_neg hp]

/-- Witness for `description_normalization` on three concrete
descriptions: a Hyprland-style `"… Unknown"`, a Niri-style `"PNP(…) …"`,
and an already-normal description. -/
theorem description_normalization_witness :
    normalizeDescChars ("Dell U2720Q".data ++ unknownSuffix)
      = unwrapPNP "Dell U2720Q".data
  ∧ (findSep "AOC".data = none
      ∧ unknownSuffix.isSuffixOf (pnpMarker ++ "AOC".data ++ ')' :: ' ' :: "2757".data)
          = false
      ∧ normalizeDescChars (pnpMarker ++ "AOC".data ++ ')' :: ' ' :: "2757".data)
          = "AOC".data ++ ' ' :: "2757".data)
  ∧ (unknownSuffix.isSuffixOf "LG Display".data = false
      ∧ normalizeDescChars "LG Display".data = "LG Display".data) :=
  ⟨description_normalization.1 _,
   ⟨by decide, by decide,
    description_normalization.2.1 "AOC".data "2757".data (by decide) (by decide)⟩,
   ⟨by decide,
    description_normalization.2.2 "LG Display".data (by decide) (Or.inl (by decide))⟩⟩

/-- When no profile monitor is currently connected, the second safety pass
finds nothing to enable. -/
theorem enableFirstConnected_none (connected : List String) :
    ∀ mons : List MonitorConfig,
      (∀ m ∈ mons, connected.contains m.description = false) →
      enableFirstConnected mons connected = none
  | [], _ => rfl
  | m :: rest, h => by
    unfold enableFirstConnected
    rw [if_neg (by rw [h m (List.mem_cons_self m rest)]; exact Bool.false_ne_true)]
    rw [enableFirstConnected_none connected rest
      fun x hx => h x (List.mem_cons_of_mem m hx)]
    rfl

/-- A successful second safety pass leaves an enabled connected monitor in
the list. -/
theorem enableFirstConnected_some (connected : List String) :
    ∀ mons mons' : List MonitorConfig,
      enableFirstConnected mons connected = some mons' →
      ∃ m' ∈ mons', m'.enabled = true ∧ connected.contains m'.description = true
  | [], _, h => by exact absurd h (by simp [enableFirstConnected])
  | m :: rest, mons', h => by
    unfold enableFirstConnected at h
    by_cases hc : connected.contains m.description = true
    · rw [if_pos hc] at h
      refine ⟨{ m with enabled := true }, ?_, rfl, hc⟩
      rw [← Option.some_inj.mp h]
      exact List.mem_cons_self _ _
    · rw [if_neg hc] at h
      cases hrec : enableFirstConnected rest connected with
      | none => rw [hrec] at h; exact absurd h (by simp)
      | some rest' =>
        rw [hrec] at h
        rcases enableFirstConnected_some connected rest rest' hrec with ⟨m', hm', he, hcn⟩
        refine ⟨m', ?_, he, hcn⟩
        rw [← Option.some_inj.mp h]
        exact List.mem_cons_of_mem m hm'

/-- The second safety pass succeeds whenever some profile monitor is
connected. -/
theorem enableFirstConnected_isSome (connected : List String) :
    ∀ mons : List MonitorConfig,
      (∃ m ∈ mons, connected.contains m.description = true) →
      ∃ mons', enableFirstConnected mons connected = some mons'
  | [], h => by simp at h
  | m :: rest, h => by
    unfold enableFirstConnected
    by_cases hc : connected.contains m.description = true
    · exact ⟨_, by rw [if_pos hc]⟩
    · rw [if_neg hc]
      rcases h with ⟨x, hx, hcx⟩
      rcases List.mem_cons.mp hx with rfl | hxr
      · exact absurd hcx hc
      · rcases enableFirstConnected_isSome connected rest ⟨x, hxr, hcx⟩ with ⟨r', hr'⟩
        exact ⟨m :: r', by rw [hr']; rfl⟩

/-- C1: the daemon safety step.  Assume no profile monitor is both enabled
and currently connected.  Then: if the profile has a connected internal
monitor, the step returns a list in which every connected internal monitor
of the profile is force-enabled; if the profile has any connected monitor
at all, the step still returns a list (the apply proceeds); and if no
profile monitor is connected, the step aborts with `none`.  Finally,
unconditionally, any list the step returns contains an enabled
currently-connected monitor, so every apply that proceeds leaves at least
one connected monitor enabled. -/
theorem daemon_safety_fallback (mons : List MonitorConfig) (connected : List String) :
    ((∀ m ∈ mons, ¬(m.enabled = true ∧ connected.contains m.description = true)) →
      ((∃ m ∈ mons, m.is_internal = true ∧ connected.contains m.description = true) →
        ∃ mons', safetyFix mons connected = some mons' ∧
          ∀ m' ∈ mons', m'.is_internal = true →
            connected.contains m'.description = true → m'.enabled = true)
      ∧ ((∃ m ∈ mons, connected.contains m.description = true) →
          ∃ mons', safetyFix mons connected = some mons')
      ∧ ((∀ m ∈ mons, connected.contains m.description = false) →
          safetyFix mons connected = none))
  ∧ (∀ mons', safetyFix mons connected = some mons' →
      ∃ m' ∈ mons', m'.enabled = true ∧ connected.contains m'.description = true) := by
  constructor
  · intro hNoEn
    have hAnyEn : (mons.any fun m => m.enabled && connected.contains m.description)
        = false := by
      cases hc : mons.any fun m => m.enabled && connected.contains m.description
      · rfl
      · rcases List.any_eq_true.mp hc with ⟨m, hm, hp⟩
        exact absurd (Bool.and_eq_true_iff.mp hp) (by exact_mod_cast hNoEn m hm)
    refine ⟨?_, ?_, ?_⟩
    · intro hInt
      rcases hInt with ⟨m0, hm0, hi0, hc0⟩
      have hAnyInt : (mons.any fun m => m.is_internal && connected.contains m.description)
          = true :=
        List.any_eq_true.mpr ⟨m0, hm0, Bool.and_eq_true_iff.mpr ⟨hi0, hc0⟩⟩
      refine ⟨_, by unfold safetyFix; rw [hAnyEn, hAnyInt]; rfl, ?_⟩
      intro m' hm' hi' hc'
      rcases List.mem_map.mp hm' with ⟨m, hm, hfm⟩
      by_cases hp : (m.is_internal && connected.contains m.description) = true
      · rw [← hfm, if_pos hp]
      · rw [← hfm, if_neg hp] at hi' hc' ⊢
        exact absurd (Bool.and_eq_true_iff.mpr ⟨hi', hc'⟩) hp
    · intro hConn
      by_cases hAnyInt : (mons.any fun m =>
          m.is_internal && connected.contains m.description) = true
      · exact ⟨_, by unfold safetyFix; rw [hAnyEn, hAnyInt]; rfl⟩
      · rcases enableFirstConnected_isSome connected mons hConn with ⟨r, hr⟩
        refine ⟨r, ?_⟩
        unfold safetyFix
        rw [hAnyEn, Bool.eq_false_iff.mpr hAnyInt]
        simpa using hr
    · intro hNone
      have hAnyInt : (mons.any fun m =>
          m.is_internal && connected.contains m.description) = false := by
        cases hc : mons.any fun m => m.is_internal && connected.contains m.description
        · rfl
        · rcases List.any_eq_true.mp hc with ⟨m, hm, hp⟩
          have := (Bool.and_eq_true_iff.mp hp).2
          rw [hNone m hm] at this
          exact absurd this (by simp)
      unfold safetyFix
      rw [hAnyEn, hAnyInt]
      simpa using enableFirstConnected_none connected mons hNone
  · intro mons' hres
    unfold safetyFix at hres
    by_cases hAnyEn : (mons.any fun m =>
        m.enabled && connected.contains m.description) = true
    · rw [hAnyEn] at hres
      simp only [if_true] at hres
      rcases List.any_eq_true.mp hAnyEn with ⟨m, hm, hp⟩
      rcases Bool.and_eq_true_iff.mp hp with ⟨he, hc⟩
      exact ⟨m, by rw [← Option.some_inj.mp hres]; exact hm, he, hc⟩
    · rw [Bool.eq_false_iff.mpr hAnyEn] at hres
      simp only [Bool.false_eq_true, if_false] at hres
      by_cases hAnyInt : (mons.any fun m =>
          m.is_internal && connected.contains m.description) = true
      · rw [hAnyInt] at hres
        simp only [if_true] at hres
        rcases List.any_eq_true.mp hAnyInt with ⟨m, hm, hp⟩
        rcases Bool.and_eq_true_iff.mp hp with ⟨hi, hc⟩
        refine ⟨{ m with enabled := true }, ?_, rfl, hc⟩
        rw [← Option.some_inj.mp hres]
        exact List.mem_map.mpr ⟨m, hm, by rw [if_pos hp]⟩
      · rw [Bool.eq_false_iff.mpr hAnyInt] at hres
        simp only [Bool.false_eq_true, if_false] at hres
        exact enableFirstConnected_some connected mons mons' hres

/-- Witness for `daemon_safety_fallback`: a profile that disables both its
connected external monitor and its connected internal panel is applied
with the internal panel force-enabled. -/
theorem daemon_safety_fallback_witness :
    (∀ m ∈ [({ name := "DP-1", description := "LG Display", enabled := false } :
        MonitorConfig),
      ({ name := "eDP-1", description := "Internal Panel", enabled := false } :
        MonitorConfig)],
      ¬(m.enabled = true ∧
        (["LG Display", "Internal Panel"] : List String).contains m.description = true))
  ∧ ∃ mons', safetyFix
      [({ name := "DP-1", description := "LG Display", enabled := false } :
          MonitorConfig),
       ({ name := "eDP-1", description := "Internal Panel", enabled := false } :
          MonitorConfig)]
      ["LG Display", "Internal Panel"] = some mons' ∧
      ∀ m' ∈ mons', m'.is_internal = true →
        (["LG Display", "Internal Panel"] : List String).contains m'.description = true →
        m'.enabled = true :=
  ⟨by decide,
   ((daemon_safety_fallback _ _).1 (by decide)).1 (by decide)⟩

/-- Round-trip of the `ResolutionMode` string tag. -/
theorem resolutionMode_tag_roundtrip (e : ResolutionMode) :
    ResolutionMode.ofValue e.value = some e := by cases e <;> rfl

/-- Round-trip of the `PositionMode` string tag. -/
theorem positionMode_tag_roundtrip (e : PositionMode) :
    PositionMode.ofValue e.value = some e := by cases e <;> rfl

/-- Round-trip of the `ScaleMode` string tag. -/
theorem scaleMode_tag_roundtrip (e : ScaleMode) :
    ScaleMode.ofValue e.value = some e := by cases e <;> rfl

/-- Round-trip of the `Transform` integer tag. -/
theorem transform_tag_roundtrip (e : Transform) :
    Transform.ofValue e.value = some e := by cases e <;> rfl

/-- Round-trip of the `VRR` integer tag. -/
theorem vrr_tag_roundtrip (e : VRR) :
    VRR.ofValue e.value = some e := by cases e <;> rfl

/-- Round-trip of a workspace rule: all its fields are primitives. -/
theorem workspaceRule_dict_roundtrip (w : WorkspaceRule) :
    WorkspaceRule.from_dict w.to_dict = w := rfl

/-- Round-trip of a monitor whose description is a normalisation fixed
point (deserialisation re-runs `__post_init__`, so the description is
normalised a second time). -/
theorem monitorConfig_dict_roundtrip (m : MonitorConfig)
    (h : normalizeDesc m.description = m.description) :
    MonitorConfig.from_dict m.to_dict = some m := by
  unfold MonitorConfig.from_dict MonitorConfig.to_dict
  simp only [resolutionMode_tag_roundtrip, positionMode_tag_roundtrip,
    scaleMode_tag_roundtrip, transform_tag_roundtrip, vrr_tag_roundtrip,
    Option.bind_eq_bind, Option.some_bind]
  unfold MonitorConfig.construct
  simp only []
  rw [h]

/-- Round-trip of a monitor list under `mapM`. -/
theorem mapM_monitor_from_dict_to_dict :
    ∀ l : List MonitorConfig,
      (∀ m ∈ l, normalizeDesc m.description = m.description) →
      (l.map MonitorConfig.to_dict).mapM MonitorConfig.from_dict = some l
  | [], _ => rfl
  | m :: t, h => by
    rw [List.map_cons, List.mapM_cons]
    rw [monitorConfig_dict_roundtrip m (h m (List.mem_cons_self m t))]
    rw [mapM_monitor_from_dict_to_dict t fun x hx => h x (List.mem_cons_of_mem m hx)]
    rfl

/-- C7 counterexample: the round-trip claim fails as stated.  This profile
is reachable in the program — its monitor is constructed from the raw
description `"A Unknown Unknown"`, which `__post_init__` normalises to
`"A Unknown"` — yet reloading it from its dict normalises the description
again, to `"A"`, so `Profile.from_dict(p.to_dict())` differs from `p`. -/
theorem profile_roundtrip_counterexample :
    Profile.from_dict roundtripCexProfile.to_dict ≠ some roundtripCexProfile := by
  decide

/-- C7 (amended): for every profile whose monitor descriptions are fixed
points of the normalisation — which includes every profile whose
descriptions neither end in `" Unknown"` nor carry an unwrappable
`"PNP(…) "` wrapper — `Profile.from_dict(p.to_dict())` reproduces `p`
exactly: the profile name, every field of every monitor (the five enums
through their string/int tags) and every field of every workspace rule. -/
theorem profile_roundtrip_normalized (p : Profile)
    (h : ∀ m ∈ p.monitors, normalizeDesc m.description = m.description) :
    Profile.from_dict p.to_dict = some p := by
  unfold Profile.from_dict Profile.to_dict
  rw [mapM_monitor_from_dict_to_dict p.monitors h]
  simp only [Option.bind_eq_bind, Option.some_bind]
  rw [List.map_map]
  rw [show WorkspaceRule.from_dict ∘ WorkspaceRule.to_dict = id from
    funext fun w => workspaceRule_dict_roundtrip w]
  rw [List.map_id]

/-- Witness for `profile_roundtrip_normalized` on a concrete two-monitor
profile with a workspace rule. -/
theorem profile_roundtrip_normalized_witness :
    (∀ m ∈ roundtripWitnessProfile.monitors,
      normalizeDesc m.description = m.description)
  ∧ Profile.from_dict roundtripWitnessProfile.to_dict
      = some roundtripWitnessProfile :=
  ⟨by decide, profile_roundtrip_normalized _ (by decide)⟩

/-- Membership is preserved by sorted insertion. -/
theorem mem_insertSorted (a x : String) :
    ∀ l : List String, x ∈ insertSorted a l ↔ x = a ∨ x ∈ l
  | [] => by simp [insertSorted]
  | b :: t => by
    unfold insertSorted
    split
    · simp
    · rw [List.mem_cons, mem_insertSorted a x t, List.mem_cons]
      tauto

/-- Membership is preserved by `sortStrings`. -/
theorem mem_sortStrings (x : String) :
    ∀ l : List String, x ∈ sortStrings l ↔ x ∈ l
  | [] => Iff.rfl
  | a :: t => by
    unfold sortStrings
    rw [List.foldr_cons, mem_insertSorted, List.mem_cons]
    exact or_congr Iff.rfl (mem_sortStrings x t)

/-- A description of a profile monitor that is in the fingerprint. -/
theorem fingerprint_mem (p : Profile) (d : String) (h : d ∈ p.fingerprint) :
    ∃ m ∈ p.monitors, m.description = d := by
  unfold Profile.fingerprint at h
  rw [mem_sortStrings] at h
  rcases List.mem_filterMap.mp h with ⟨m, hm, hsome⟩
  by_cases hd : m.description ≠ ""
  · rw [if_pos hd] at hsome
    exact ⟨m, hm, Option.some_inj.mp hsome⟩
  · rw [if_neg hd] at hsome
    exact absurd hsome (by simp)

/-- Auxiliary invariant of the description-dict fold: the accumulator stays
`some` once set, and is set when a matching description appears. -/
theorem lookupDesc_fold_isSome (d : String) :
    ∀ (mons : List MonitorConfig) (acc : Option MonitorConfig),
      (acc.isSome = true ∨ ∃ mc ∈ mons, mc.description = d) →
      (mons.foldl (fun acc m => if m.description = d then some m else acc) acc).isSome
        = true
  | [], acc, h => by
    rcases h with h | h
    · exact h
    · simp at h
  | m :: t, acc, h => by
    rw [List.foldl_cons]
    by_cases hm : m.description = d
    · exact lookupDesc_fold_isSome d t _ (Or.inl (by rw [if_pos hm]; rfl))
    · rw [if_neg hm]
      rcases h with h | ⟨mc, hmc, hd⟩
      · exact lookupDesc_fold_isSome d t _ (Or.inl h)
      · rcases List.mem_cons.mp hmc with rfl | hmt
        · exact absurd hd hm
        · exact lookupDesc_fold_isSome d t _ (Or.inr ⟨mc, hmt, hd⟩)

/-- The description dict lookup succeeds when some current monitor carries
the description. -/
theorem lookupDesc_isSome_of (d : String) (mons : List MonitorConfig)
    (h : ∃ mc ∈ mons, mc.description = d) :
    ∃ live, lookupDesc mons d = some live := by
  have haux := lookupDesc_fold_isSome d mons none (Or.inr h)
  unfold lookupDesc
  exact Option.isSome_iff_exists.mp haux

/-- The fold that models sorting-descending-and-taking-the-head returns an
element of the candidate list. -/
theorem foldl_pickBest_mem : ∀ (l : List Cand) (c : Cand), l.foldl pickBest c ∈ c :: l
  | [], c => List.mem_cons_self c []
  | x :: t, c => by
    rw [List.foldl_cons]
    rcases List.mem_cons.mp (foldl_pickBest_mem t (pickBest c x)) with h | h
    · rw [h]
      unfold pickBest
      split
      · exact List.mem_cons_of_mem c (List.mem_cons_self x t)
      · exact List.mem_cons_self c (x :: t)
    · exact List.mem_cons_of_mem c (List.mem_cons_of_mem x h)

/-- The fold result's key dominates every candidate's key. -/
theorem foldl_pickBest_le : ∀ (l : List Cand) (c x : Cand),
    x ∈ c :: l → x.key ≤ (l.foldl pickBest c).key
  | [], c, x, hx => by
    rcases List.mem_cons.mp hx with rfl | h
    · exact le_refl _
    · simp at h
  | y :: t, c, x, hx => by
    rw [List.foldl_cons]
    have hkey : c.key ≤ (pickBest c y).key ∧ y.key ≤ (pickBest c y).key := by
      unfold pickBest
      split
      · rename_i hlt
        exact ⟨le_of_lt hlt, le_refl _⟩
      · rename_i hnlt
        exact ⟨le_refl _, le_of_not_lt hnlt⟩
    have hbest := foldl_pickBest_le t (pickBest c y) (pickBest c y)
      (List.mem_cons_self _ _)
    rcases List.mem_cons.mp hx with rfl | hxt
    · exact le_trans hkey.1 hbest
    · rcases List.mem_cons.mp hxt with rfl | hxt'
      · exact le_trans hkey.2 hbest
      · exact foldl_pickBest_le t (pickBest c y) x (List.mem_cons_of_mem _ hxt')

/-- Characterisation of a successful `findBestMatch`: the fingerprint was
non-empty, and the returned profile belongs to a candidate whose key is
maximal among all candidates. -/
theorem findBestMatch_spec (stored : List Profile) (cur : List String)
    (cs : List MonitorConfig) (ec : Bool) (p : Profile)
    (h : findBestMatch stored cur cs ec = some p) :
    cur ≠ [] ∧ ∃ c ∈ stored.filterMap (candidateOf cur cs ec), c.profile = p ∧
      ∀ c' ∈ stored.filterMap (candidateOf cur cs ec), c'.key ≤ c.key := by
  unfold findBestMatch at h
  by_cases hcur : cur = []
  · rw [if_pos hcur] at h
    exact absurd h (by simp)
  · rw [if_neg hcur] at h
    refine ⟨hcur, ?_⟩
    cases hfm : stored.filterMap (candidateOf cur cs ec) with
    | nil =>
      rw [hfm] at h
      exact absurd h (by simp)
    | cons c rest =>
      rw [hfm] at h
      have hp : (rest.foldl pickBest c).profile = p := by
        simpa using h
      refine ⟨rest.foldl pickBest c, ?_, hp, ?_⟩
      · exact foldl_pickBest_mem rest c
      · intro c' hc'
        exact foldl_pickBest_le rest c c' hc'

/-- The option produced by the candidate loop body determines the floor
facts: a surviving candidate has a non-empty fingerprint and a Jaccard
score of at least one half, and carries the profile and its counters in
its key. -/
theorem candidateOf_some (cur : List String) (cs : List MonitorConfig) (ec : Bool)
    (q : Profile) (c : Cand) (h : candidateOf cur cs ec q = some c) :
    c.profile = q ∧ q.fingerprint ≠ [] ∧ (1/2 : ℚ) ≤ jaccardScore cur q.fingerprint ∧
    c.key = MatchKey.make (jaccardScore cur q.fingerprint)
      (-((computeCounts cs q).missing_enabled : ℤ)) (computeCounts cs q).ext_enabled
      (computeCounts cs q).enabled_matches (computeCounts cs q).config_matches ∧
    ¬(ec = true ∧ cs.isEmpty = false ∧ 0 < (computeCounts cs q).total_compared ∧
      (0 < (computeCounts cs q).missing_enabled ∨
        (computeCounts cs q).enabled_matches ≠ (computeCounts cs q).total_compared ∨
        (computeCounts cs q).config_matches ≠ (computeCounts cs q).total_compared)) := by
  simp only [candidateOf] at h
  split_ifs at h with h1 h2 h3 h4
  have hc : c = ⟨MatchKey.make (jaccardScore cur q.fingerprint)
      (-((computeCounts cs q).missing_enabled : ℤ)) (computeCounts cs q).ext_enabled
      (computeCounts cs q).enabled_matches (computeCounts cs q).config_matches, q⟩ :=
    (Option.some_inj.mp h).symm
  subst hc
  exact ⟨rfl, h1, le_of_not_lt h3, rfl, h4⟩

/-- C2: `find_best_match` considers exactly the stored profiles with a
non-empty fingerprint, scores them by Jaccard similarity of fingerprint
sets, discards candidates scoring below one half, and returns `none` when
no stored profile clears the floor. -/
theorem find_best_match_similarity_floor (stored : List Profile) (cur : List String)
    (cs : List MonitorConfig) (ec : Bool) :
    (∀ p : Profile, findBestMatch stored cur cs ec = some p →
      p ∈ stored ∧ p.fingerprint ≠ [] ∧ (1/2 : ℚ) ≤ jaccardScore cur p.fingerprint)
  ∧ ((∀ p ∈ stored, p.fingerprint ≠ [] → jaccardScore cur p.fingerprint < 1/2) →
      findBestMatch stored cur cs ec = none) := by
  constructor
  · intro p h
    rcases findBestMatch_spec stored cur cs ec p h with ⟨-, c, hcmem, hcp, -⟩
    rcases List.mem_filterMap.mp hcmem with ⟨q, hq, hcand⟩
    rcases candidateOf_some cur cs ec q c hcand with ⟨hprof, hfp, hfloor, -, -⟩
    have hqp : q = p := by rw [← hcp, hprof]
    subst hqp
    exact ⟨hq, hfp, hfloor⟩
  · intro hall
    unfold findBestMatch
    by_cases hcur : cur = []
    · rw [if_pos hcur]
    · rw [if_neg hcur]
      have hfm : stored.filterMap (candidateOf cur cs ec) = [] := by
        rw [List.filterMap_eq_nil_iff]
        intro q hq
        simp only [candidateOf]
        split_ifs with h1 h2 h3 h4
        · rfl
        · rfl
        · rfl
        · rfl
        · exact absurd (hall q hq h1) h3
      rw [hfm]

/-- Witness for `find_best_match_similarity_floor`: a current fingerprint
`["A"]` against a single stored profile with fingerprint `["B"]`
(similarity `0`) yields no match. -/
theorem find_best_match_similarity_floor_witness :
    (∀ p ∈ [({ name := "B", monitors := [{ name := "DP-2", description := "B" }] } :
        Profile)],
      p.fingerprint ≠ [] → jaccardScore ["A"] p.fingerprint < 1/2)
  ∧ findBestMatch [({ name := "B", monitors := [{ name := "DP-2", description := "B" }] } :
      Profile)] ["A"] [] false = none :=
  ⟨by with_unfolding_all decide,
   (find_best_match_similarity_floor _ _ _ _).2 (by with_unfolding_all decide)⟩

/-- C3: in daemon mode (`exact_config = false`), a profile returned by
`find_best_match` belongs to a candidate whose key — the tuple (Jaccard
score, negated missing-enabled count, external-enabled count,
enabled-state matches, full-config matches), compared lexicographically —
is maximal over all candidates clearing the floor; and the counting loop
treats a profile-enabled monitor whose live counterpart is a disabled
internal display as both an enabled-state match and a full-config match
(the clamshell special case). -/
theorem find_best_match_ranking (stored : List Profile) (cur : List String)
    (cs : List MonitorConfig) (p : Profile)
    (h : findBestMatch stored cur cs false = some p) :
    (∃ c ∈ stored.filterMap (candidateOf cur cs false), c.profile = p ∧
      ∀ c' ∈ stored.filterMap (candidateOf cur cs false), c'.key ≤ c.key)
  ∧ ∀ (acc : MatchCounts) (m live : MonitorConfig),
      lookupDesc cs m.description = some live →
      m.enabled = true → live.enabled = false → live.is_internal = true →
      (countsStep cs acc m).enabled_matches = acc.enabled_matches + 1 ∧
      (countsStep cs acc m).config_matches = acc.config_matches + 1 := by
  constructor
  · exact (findBestMatch_spec stored cur cs false p h).2
  · intro acc m live hl hm hle hli
    unfold countsStep
    rw [hl]
    dsimp only
    rw [if_pos (show (m.enabled && !live.enabled && live.is_internal) = true by
      rw [hm, hle, hli]; rfl)]
    constructor
    · dsimp only
      split <;> rfl
    · dsimp only
      split <;> rfl

/-- Witness for `find_best_match_ranking`: with current fingerprint
`["A", "B"]`, the profile with fingerprint `["A", "B"]` (score 1) beats
the profile with fingerprint `["A"]` (score one half). -/
theorem find_best_match_ranking_witness :
    findBestMatch [profileA, profileAB] ["A", "B"] [] false = some profileAB
  ∧ ∃ c ∈ [profileA, profileAB].filterMap (candidateOf ["A", "B"] [] false),
      c.profile = profileAB ∧
      ∀ c' ∈ [profileA, profileAB].filterMap (candidateOf ["A", "B"] [] false),
        c'.key ≤ c.key :=
  ⟨by with_unfolding_all decide,
   (find_best_match_ranking [profileA, profileAB] ["A", "B"] [] profileAB
     (by with_unfolding_all decide)).1⟩

/-- One loop iteration adds exactly the monitor's own contribution to the
accumulated counters. -/
theorem countsStep_decomp (cs : List MonitorConfig) (acc : MatchCounts)
    (m : MonitorConfig) :
    countsStep cs acc m = addCounts acc (contribCounts cs m) := by
  unfold contribCounts countsStep addCounts
  cases hl : lookupDesc cs m.description <;>
    (dsimp only; split_ifs <;> rfl)

/-- The counting fold computes the componentwise sums of the per-monitor
contributions. -/
theorem foldl_counts (cs : List MonitorConfig) :
    ∀ (l : List MonitorConfig) (acc : MatchCounts),
      l.foldl (countsStep cs) acc = addCounts acc
        ⟨(l.map fun m => (contribCounts cs m).enabled_matches).sum,
         (l.map fun m => (contribCounts cs m).config_matches).sum,
         (l.map fun m => (contribCounts cs m).total_compared).sum,
         (l.map fun m => (contribCounts cs m).missing_enabled).sum,
         (l.map fun m => (contribCounts cs m).ext_enabled).sum⟩
  | [], acc => by simp [addCounts]
  | m :: t, acc => by
    rw [List.foldl_cons, countsStep_decomp, foldl_counts cs t]
    simp only [List.map_cons, List.sum_cons, addCounts, MatchCounts.mk.injEq]
    omega

/-- The candidate counters are the sums of the per-monitor contributions
(once the live-monitor list is non-empty). -/
theorem computeCounts_sums (cs : List MonitorConfig) (p : Profile)
    (h : cs.isEmpty = false) :
    computeCounts cs p =
      ⟨(p.monitors.map fun m => (contribCounts cs m).enabled_matches).sum,
       (p.monitors.map fun m => (contribCounts cs m).config_matches).sum,
       (p.monitors.map fun m => (contribCounts cs m).total_compared).sum,
       (p.monitors.map fun m => (contribCounts cs m).missing_enabled).sum,
       (p.monitors.map fun m => (contribCounts cs m).ext_enabled).sum⟩ := by
  unfold computeCounts
  rw [if_neg (by rw [h]; exact Bool.false_ne_true)]
  rw [foldl_counts cs p.monitors ⟨0, 0, 0, 0, 0⟩]
  simp [addCounts]

/-- A compared monitor contributes exactly one to `total_compared`. -/
theorem contrib_tot_of_lookup (cs : List MonitorConfig) (m live : MonitorConfig)
    (hl : lookupDesc cs m.description = some live) :
    (contribCounts cs m).total_compared = 1 := by
  unfold contribCounts countsStep
  rw [hl]
  dsimp only
  split_ifs <;> rfl

/-- A monitor's enabled-match contribution is bounded by its compared
contribution. -/
theorem contrib_en_le_tot (cs : List MonitorConfig) (m : MonitorConfig) :
    (contribCounts cs m).enabled_matches ≤ (contribCounts cs m).total_compared := by
  unfold contribCounts countsStep
  cases lookupDesc cs m.description <;> (dsimp only; split_ifs <;> simp)

/-- A monitor's config-match contribution is bounded by its compared
contribution. -/
theorem contrib_cfg_le_tot (cs : List MonitorConfig) (m : MonitorConfig) :
    (contribCounts cs m).config_matches ≤ (contribCounts cs m).total_compared := by
  unfold contribCounts countsStep
  cases lookupDesc cs m.description <;> (dsimp only; split_ifs <;> simp)

/-- A compared monitor whose enabled-match and config-match contributions
both equal its compared contribution matches fully. -/
theorem contrib_full (cs : List MonitorConfig) (m live : MonitorConfig)
    (hl : lookupDesc cs m.description = some live)
    (hen : (contribCounts cs m).enabled_matches = (contribCounts cs m).total_compared)
    (hcfg : (contribCounts cs m).config_matches = (contribCounts cs m).total_compared) :
    pairFullMatch m live := by
  unfold contribCounts countsStep at hen hcfg
  rw [hl] at hen hcfg
  dsimp only at hen hcfg
  by_cases hg : geomEq m live <;>
    cases hme : m.enabled <;> cases hle : live.enabled <;>
      cases hli : live.is_internal <;>
        simp_all [pairFullMatch]

/-- A member's value is at most the sum over the list. -/
theorem le_sum_of_mem {f : MonitorConfig → ℕ} :
    ∀ (l : List MonitorConfig) (m : MonitorConfig), m ∈ l → f m ≤ (l.map f).sum
  | [], m, hm => absurd hm (by simp)
  | a :: t, m, hm => by
    simp only [List.map_cons, List.sum_cons]
    rcases List.mem_cons.mp hm with rfl | hmt
    · exact Nat.le_add_right _ _
    · exact le_trans (le_sum_of_mem t m hmt) (Nat.le_add_left _ _)

/-- Equal sums of pointwise-dominated functions force pointwise equality. -/
theorem sum_eq_pointwise {f g : MonitorConfig → ℕ} :
    ∀ l : List MonitorConfig, (∀ x ∈ l, f x ≤ g x) →
      (l.map f).sum = (l.map g).sum → ∀ x ∈ l, f x = g x
  | [], _, _, x, hx => absurd hx (by simp)
  | a :: t, hle, hsum, x, hx => by
    have hta : (t.map f).sum ≤ (t.map g).sum :=
      List.sum_le_sum fun i hi => hle i (List.mem_cons_of_mem a hi)
    have hha : f a ≤ g a := hle a (List.mem_cons_self a t)
    simp only [List.map_cons, List.sum_cons] at hsum
    have hkey : f a = g a ∧ (t.map f).sum = (t.map g).sum := by omega
    rcases List.mem_cons.mp hx with rfl | hxt
    · exact hkey.1
    · exact sum_eq_pointwise t (fun i hi => hle i (List.mem_cons_of_mem a hi))
        hkey.2 x hxt

/-- C8: in exact mode, with a non-empty live-monitor list whose
descriptions cover the current fingerprint, a returned profile has zero
missing-enabled penalties, and each of its enabled-state and config-match
counts equals the number of compared outputs; consequently every compared
output matches fully (enabled state together with full geometry, both
sides disabled, or the clamshell special case). -/
theorem find_best_match_exact_mode (stored : List Profile) (cur : List String)
    (cs : List MonitorConfig) (p : Profile)
    (hcs : cs.isEmpty = false)
    (hcur : ∀ d ∈ cur, ∃ mc ∈ cs, mc.description = d)
    (h : findBestMatch stored cur cs true = some p) :
    (computeCounts cs p).missing_enabled = 0
  ∧ (computeCounts cs p).enabled_matches = (computeCounts cs p).total_compared
  ∧ (computeCounts cs p).config_matches = (computeCounts cs p).total_compared
  ∧ ∀ m ∈ p.monitors, ∀ live, lookupDesc cs m.description = some live →
      pairFullMatch m live := by
  rcases findBestMatch_spec stored cur cs true p h with ⟨-, c, hcmem, hcp, -⟩
  rcases List.mem_filterMap.mp hcmem with ⟨q, hq, hcand⟩
  rcases candidateOf_some cur cs true q c hcand with ⟨hprof, hfp, hfloor, -, hfilter⟩
  have hqp : q = p := by rw [← hcp, hprof]
  subst hqp
  have hinter : (cur.toFinset ∩ q.fingerprint.toFinset).Nonempty := by
    by_contra hempty
    rw [Finset.not_nonempty_iff_eq_empty] at hempty
    rw [jaccardScore, hempty] at hfloor
    simp at hfloor
    exact absurd hfloor (by norm_num)
  rcases hinter with ⟨d, hd⟩
  rw [Finset.mem_inter] at hd
  rcases fingerprint_mem q d (List.mem_toFinset.mp hd.2) with ⟨m0, hm0, hm0d⟩
  rcases lookupDesc_isSome_of d cs (hcur d (List.mem_toFinset.mp hd.1))
    with ⟨live0, hlive0⟩
  have hl0 : lookupDesc cs m0.description = some live0 := by rw [hm0d]; exact hlive0
  have htot : 0 < (computeCounts cs q).total_compared := by
    rw [computeCounts_sums cs q hcs]
    have h1 : (contribCounts cs m0).total_compared = 1 :=
      contrib_tot_of_lookup cs m0 live0 hl0
    have h2 : (contribCounts cs m0).total_compared ≤
        (q.monitors.map fun m => (contribCounts cs m).total_compared).sum :=
      le_sum_of_mem (f := fun m => (contribCounts cs m).total_compared)
        q.monitors m0 hm0
    dsimp only
    omega
  have hkey : ¬(0 < (computeCounts cs q).missing_enabled ∨
      (computeCounts cs q).enabled_matches ≠ (computeCounts cs q).total_compared ∨
      (computeCounts cs q).config_matches ≠ (computeCounts cs q).total_compared) :=
    fun hbad => hfilter ⟨rfl, hcs, htot, hbad⟩
  push_neg at hkey
  obtain ⟨hmiss, hen, hcfg⟩ := hkey
  refine ⟨by omega, hen, hcfg, ?_⟩
  have hsums := computeCounts_sums cs q hcs
  have hen' : (q.monitors.map fun m => (contribCounts cs m).enabled_matches).sum
      = (q.monitors.map fun m => (contribCounts cs m).total_compared).sum := by
    rw [hsums] at hen
    exact hen
  have hcfg' : (q.monitors.map fun m => (contribCounts cs m).config_matches).sum
      = (q.monitors.map fun m => (contribCounts cs m).total_compared).sum := by
    rw [hsums] at hcfg
    exact hcfg
  intro m hm live hlm
  exact contrib_full cs m live hlm
    (sum_eq_pointwise q.monitors (fun x _ => contrib_en_le_tot cs x) hen' m hm)
    (sum_eq_pointwise q.monitors (fun x _ => contrib_cfg_le_tot cs x) hcfg' m hm)

/-- Witness for `find_best_match_exact_mode`: one live monitor matching
the stored profile exactly, detected in exact mode. -/
theorem find_best_match_exact_mode_witness :
    (([({ name := "DP-3", description := "A" } : MonitorConfig)] :
        List MonitorConfig).isEmpty = false)
  ∧ (∀ d ∈ (["A"] : List String),
      ∃ mc ∈ [({ name := "DP-3", description := "A" } : MonitorConfig)],
        mc.description = d)
  ∧ ((computeCounts [({ name := "DP-3", description := "A" } : MonitorConfig)]
        profileA).missing_enabled = 0
    ∧ (computeCounts [({ name := "DP-3", description := "A" } : MonitorConfig)]
        profileA).enabled_matches
      = (computeCounts [({ name := "DP-3", description := "A" } : MonitorConfig)]
        profileA).total_compared
    ∧ (computeCounts [({ name := "DP-3", description := "A" } : MonitorConfig)]
        profileA).config_matches
      = (computeCounts [({ name := "DP-3", description := "A" } : MonitorConfig)]
        profileA).total_compared
    ∧ ∀ m ∈ profileA.monitors, ∀ live,
        lookupDesc [({ name := "DP-3", description := "A" } : MonitorConfig)]
          m.description = some live →
        pairFullMatch m live) :=
  ⟨rfl, by decide,
   find_best_match_exact_mode [profileA] ["A"]
     [({ name := "DP-3", description := "A" } : MonitorConfig)] profileA
     rfl (by decide) (by with_unfolding_all decide)⟩

end Monique
